import Mathlib

/-!
Verification of the PDF digital-signature core of NexProPDF
(`src/security/pdf_signature.py`, class `PDFSignature`).

The Python code is shallowly embedded: PKCS#11 hardware state (modules,
slots, token objects) is explicit data, every session-level call the code
makes is recorded in a trace of `SessEvent`s, Python exceptions are values
of `PyErr`, file writes are returned as a list of `(path, bytes)` pairs,
bytes are `List Nat`, and timestamps are `Int`.  External libraries
(PyKCS11, cryptography, endesive) are embedded by the behaviour of the
exact calls the repository makes into them; the endesive `pdf.cms.sign`
entry point, whose code is not in the repository, is modelled from the
spec as a black box (`CmsLib`) that the theorems quantify over.
-/

namespace NexProPDF

/-! ### PKCS#11 vocabulary -/

/-- Signing mechanisms reachable from `CKM_%s_RSA_PKCS % mech.upper()`. -/
inductive MechType
  | sha1
  | sha256
  | sha384
  | sha512
  deriving DecidableEq, Repr

/-- Object classes the code searches for (`CKO_CERTIFICATE`, `CKO_PRIVATE_KEY`). -/
inductive ObjClass
  | certificate
  | privateKey
  deriving DecidableEq, Repr

/-- Attribute types the code reads (`CKA_VALUE`, `CKA_ID`, `CKA_LABEL`, `CKA_SUBJECT`). -/
inductive AttrType
  | ckaValue
  | ckaId
  | ckaLabel
  | ckaSubject
  deriving DecidableEq, Repr

/-- One PKCS#11 session-level call performed by the embedded code.  Every
function below returns, besides its result, the list of these events in
the order the Python code performs them. -/
inductive SessEvent
  | openSession
  | closeSession
  | login (ok : Bool)
  | logout
  | findObjects (cls : ObjClass)
  | getAttr (cls : ObjClass) (attrs : List AttrType)
  | signOp (keyHandle : Nat) (mech : MechType)
  deriving DecidableEq, Repr

/-- Python exceptions raised by the embedded calls. -/
inductive PyErr
  | indexError
  | attributeError (name : String)
  | typeError (msg : String)
  | pyKCS11Error (msg : String)
  | valueError (msg : String)
  deriving DecidableEq, Repr

/-- Python `str(e)` for the exceptions above. -/
def pyErrStr : PyErr → String
  | .indexError => "list index out of range"
  | .attributeError n => "module PyKCS11 has no attribute " ++ n
  | .typeError m => m
  | .pyKCS11Error m => m
  | .valueError m => m

/-! ### X.509 certificates and `_parse_certificate` -/

/-- A parsed X.509 certificate as the `cryptography` library exposes it to
this code.  `commonName = ""` models a subject without a CN attribute;
`subjectDN` is `str(cert.subject)`. -/
structure X509Cert where
  commonName : String
  subjectDN : String
  organization : String
  issuerDN : String
  serialNumber : Nat
  notValidBefore : Int
  notValidAfter : Int
  deriving DecidableEq, Repr

/-- A `CKA_VALUE` blob: empty bytes, bytes `load_der_x509_certificate`
rejects, or bytes parsing to a certificate. -/
inductive CertData
  | empty
  | malformed
  | valid (c : X509Cert)
  deriving DecidableEq, Repr

/-- The dictionary `_parse_certificate` returns (pdf_signature.py lines
401-421).  The two timestamp strings are modelled as `Option Int`
(`none` stands for the `""` of the failure dictionary). -/
structure CertInfo where
  subject : String
  organization : String
  issuer : String
  serial : String
  validFrom : Option Int
  validUntil : Option Int
  isValid : Bool
  deriving DecidableEq, Repr

/-- The failure dictionary of `_parse_certificate` (lines 413-421). -/
def unknownCertInfo : CertInfo :=
  { subject := "Unknown", organization := "", issuer := "Unknown",
    serial := "", validFrom := none, validUntil := none, isValid := false }

/-- Python comparison of a timezone-aware datetime
(`cert.not_valid_before_utc`) against the naive `datetime.utcnow()`
(line 408).  Comparing an offset-aware and an offset-naive datetime
raises `TypeError` in Python for every pair of values, so this call
never returns a Boolean. -/
def awareNaiveLe (_aware _naive : Int) : Except PyErr Bool :=
  .error (.typeError "cannot compare offset-naive and offset-aware datetimes")

/-- The `try` body of `_parse_certificate` (lines 384-409): parse the DER
blob, read CN and O from the subject, and build the result dictionary,
whose `is_valid` entry evaluates the raising comparison above. -/
def parseCertificateTry (now : Int) : CertData → Except PyErr CertInfo
  | .empty => .error (.valueError "Unable to load certificate")
  | .malformed => .error (.valueError "Unable to load certificate")
  | .valid c => do
      let ok ← awareNaiveLe c.notValidBefore now
      .ok { subject := if c.commonName = "" then c.subjectDN else c.commonName,
            organization := c.organization,
            issuer := c.issuerDN,
            serial := toString c.serialNumber,
            validFrom := some c.notValidBefore,
            validUntil := some c.notValidAfter,
            isValid := ok }

/-- `PDFSignature._parse_certificate` (lines 382-421): the body above with
its `except Exception` handler returning the failure dictionary. -/
def parseCertificate (now : Int) (cd : CertData) : CertInfo :=
  match parseCertificateTry now cd with
  | .ok info => info
  | .error _ => unknownCertInfo

/-! ### Hardware state -/

/-- `getTokenInfo` fields the code uses. -/
structure TokenInfo where
  label : String
  manufacturerID : String
  model : String
  serialNumber : String
  flags : Nat
  deriving DecidableEq, Repr

/-- A `CKO_CERTIFICATE` object on a token.  `attrReadable = false` models
a `getAttributeValue` call on this object raising (caught and skipped by
every loop in the code). -/
structure CertObject where
  attrReadable : Bool
  value : CertData
  objId : List Nat
  objLabel : String
  deriving DecidableEq, Repr

/-- A `CKO_PRIVATE_KEY` object on a token.  `keyValue` is the raw key
material, which lives only inside the token; `keyId` is its `CKA_ID`. -/
structure PrivKeyObject where
  handle : Nat
  keyId : List Nat
  keyValue : List Nat
  deriving DecidableEq, Repr

/-- One slot with a token present.  `infoOk = false` models
`getTokenInfo` raising for this slot; `nativeSign` is the signing
primitive computed inside the token (`session.sign` returns its value
for the given key handle without exposing `keyValue`). -/
structure SlotToken where
  slotId : Nat
  infoOk : Bool
  tokenInfo : TokenInfo
  certObjects : List CertObject
  privKeys : List PrivKeyObject
  supportedMechs : List MechType
  correctPin : String
  nativeSign : Nat → List Nat → MechType → List Nat

/-- Python `str.strip()`: drop whitespace from both ends. -/
def pythonStrip (s : String) : String :=
  String.mk
    (((s.data.dropWhile fun c => c.isWhitespace).reverse.dropWhile
        fun c => c.isWhitespace).reverse)

/-- The dedup key of a slot: `token_info.serialNumber.strip()` (line 197). -/
def SlotToken.serialKey (s : SlotToken) : String :=
  pythonStrip s.tokenInfo.serialNumber

/-- One PKCS#11 DLL path as `detect_usb_tokens` probes it:
`os.path.exists` and `PyKCS11Lib.load` outcomes plus the slots with a
token present. -/
structure ModuleEnv where
  dllPath : String
  pathExists : Bool
  loadOk : Bool
  slots : List SlotToken

/-! ### `_read_certificate_cn_from_token` -/

/-- The tuple `(cn, org, valid_from, valid_until, issuer)` the reader
returns; the timestamp strings are `Option Int` as in `CertInfo`. -/
structure CNResult where
  cn : String
  org : String
  validFrom : Option Int
  validUntil : Option Int
  issuer : String
  deriving DecidableEq, Repr

/-- The empty tuple returned when no certificate yields a usable CN. -/
def CNResult.blank : CNResult :=
  { cn := "", org := "", validFrom := none, validUntil := none, issuer := "" }

/-- The `for cert_obj in cert_objects` loop of
`_read_certificate_cn_from_token` (lines 282-305): read `CKA_VALUE`
(skipping objects whose read raises and empty blobs), parse, and return
the first subject that is nonempty and not the parser failure sentinel
`"Unknown"`. -/
def readCNLoop (now : Int) : List CertObject → Option CNResult × List SessEvent
  | [] => (none, [])
  | c :: rest =>
    let ev := SessEvent.getAttr .certificate [.ckaValue]
    if c.attrReadable = false then
      let r := readCNLoop now rest
      (r.1, ev :: r.2)
    else
      match c.value with
      | .empty =>
        let r := readCNLoop now rest
        (r.1, ev :: r.2)
      | cd =>
        let info := parseCertificate now cd
        if info.subject ≠ "" ∧ info.subject ≠ "Unknown" then
          (some { cn := info.subject, org := info.organization,
                  validFrom := info.validFrom, validUntil := info.validUntil,
                  issuer := info.issuer }, [ev])
        else
          let r := readCNLoop now rest
          (r.1, ev :: r.2)

/-- `PDFSignature._read_certificate_cn_from_token` (lines 264-307): open a
read-only session, enumerate certificate objects, run the loop above, and
close the session in a `finally` block on every path. -/
def readCertificateCNFromToken (now : Int) (slot : SlotToken) :
    CNResult × List SessEvent :=
  let r := readCNLoop now slot.certObjects
  ((r.1).getD CNResult.blank,
   SessEvent.openSession :: SessEvent.findObjects .certificate :: r.2
     ++ [SessEvent.closeSession])

/-! ### `detect_usb_tokens` -/

/-- One entry of the list `detect_usb_tokens` returns (lines 229-243). -/
structure DetectedToken where
  slot : Nat
  label : String
  displayName : String
  certHolder : String
  certOrg : String
  certIssuer : String
  certValidFrom : Option Int
  certValidUntil : Option Int
  manufacturer : String
  model : String
  serial : String
  dllPath : String
  flags : Nat
  deriving DecidableEq, Repr

/-- The dictionary built for one detected token (lines 204-243):
`display_name = cert_holder_name or token_label`. -/
def mkDetectedToken (now : Int) (dll : String) (s : SlotToken) : DetectedToken :=
  let c := (readCertificateCNFromToken now s).1
  { slot := s.slotId,
    label := pythonStrip s.tokenInfo.label,
    displayName := if c.cn = "" then pythonStrip s.tokenInfo.label else c.cn,
    certHolder := c.cn,
    certOrg := c.org,
    certIssuer := c.issuer,
    certValidFrom := c.validFrom,
    certValidUntil := c.validUntil,
    manufacturer := pythonStrip s.tokenInfo.manufacturerID,
    model := pythonStrip s.tokenInfo.model,
    serial := s.serialKey,
    dllPath := dll,
    flags := s.tokenInfo.flags }

/-- The `for slot in slots` loop of `detect_usb_tokens` (lines 194-249)
for one loaded DLL, threading the `seen_serials` set: slots whose
`getTokenInfo` raises are skipped, a serial already seen is skipped,
otherwise the serial is added and the token dictionary appended. -/
def detectSlotsAux (now : Int) (dll : String) :
    List SlotToken → List String → List String × List DetectedToken
  | [], seen => (seen, [])
  | s :: rest, seen =>
    if s.infoOk = true then
      if s.serialKey ∈ seen then detectSlotsAux now dll rest seen
      else
        let r := detectSlotsAux now dll rest (s.serialKey :: seen)
        (r.1, mkDetectedToken now dll s :: r.2)
    else detectSlotsAux now dll rest seen

/-- The `for dll_path in dll_paths` loop of `detect_usb_tokens` (lines
185-252): paths that do not exist or whose library fails to load are
skipped; the `seen_serials` set carries across DLLs. -/
def detectModulesAux (now : Int) :
    List ModuleEnv → List String → List DetectedToken
  | [], _ => []
  | m :: rest, seen =>
    if (m.pathExists && m.loadOk) = true then
      let r := detectSlotsAux now m.dllPath m.slots seen
      r.2 ++ detectModulesAux now rest r.1
    else detectModulesAux now rest seen

/-- `PDFSignature.detect_usb_tokens` (lines 158-262) over the list of
candidate DLL paths (static `TOKEN_DLLS` plus `_discover_token_dlls`,
here the input list), starting from an empty `seen_serials` set. -/
def detectUsbTokens (now : Int) (modules : List ModuleEnv) : List DetectedToken :=
  detectModulesAux now modules []

/-- A trimmed serial is reachable when some existing, loadable DLL exposes
a slot whose `getTokenInfo` succeeds with that serial. -/
def SlotSerial : List SlotToken → String → Prop
  | [], _ => False
  | t :: rest, x => (t.infoOk = true ∧ t.serialKey = x) ∨ SlotSerial rest x

/-- Reachability of a serial across the whole module list. -/
def ReachableSerial : List ModuleEnv → String → Prop
  | [], _ => False
  | m :: rest, x =>
      ((m.pathExists && m.loadOk) = true ∧ SlotSerial m.slots x) ∨ ReachableSerial rest x

/-! ### `get_certificates_from_token` -/

/-- One entry of the list `get_certificates_from_token` returns
(lines 355-361): the parse dictionary plus label, id and raw data. -/
structure TokenCert where
  subject : String
  organization : String
  issuer : String
  serial : String
  validFrom : Option Int
  validUntil : Option Int
  isValid : Bool
  certLabel : String
  objId : List Nat
  rawData : CertData
  deriving DecidableEq, Repr

/-- The `for cert_obj in cert_objects` loop of
`get_certificates_from_token` (lines 341-364): objects whose attribute
read raises are skipped; `_parse_certificate` itself never raises. -/
def certsLoop (now : Int) : List CertObject → List TokenCert × List SessEvent
  | [] => ([], [])
  | c :: rest =>
    let ev := SessEvent.getAttr .certificate [.ckaValue, .ckaLabel, .ckaId, .ckaSubject]
    let r := certsLoop now rest
    if c.attrReadable = true then
      let info := parseCertificate now c.value
      ({ subject := info.subject, organization := info.organization,
         issuer := info.issuer, serial := info.serial,
         validFrom := info.validFrom, validUntil := info.validUntil,
         isValid := info.isValid, certLabel := pythonStrip c.objLabel,
         objId := c.objId, rawData := c.value } :: r.1,
       ev :: r.2)
    else (r.1, ev :: r.2)

/-- `PDFSignature.get_certificates_from_token` (lines 309-380).  The
open/login/enumerate sequence has no `try`/`finally`: an exception
(wrong PIN at `session.login`, line 334) propagates to the outer
`except` handler, which returns `[]` without closing the session, so
that trace ends right after the failed login.  Library-load failures and
an invalid slot number raise before any session is opened. -/
def getCertificatesFromToken (now : Int) (m : ModuleEnv) (slotIdx : Nat)
    (pin : Option String) : List TokenCert × List SessEvent :=
  if m.loadOk = false then ([], [])
  else
    match m.slots.get? slotIdx with
    | none => ([], [])
    | some slot =>
      match pin with
      | some p =>
        if p = slot.correctPin then
          let r := certsLoop now slot.certObjects
          (r.1, SessEvent.openSession :: SessEvent.login true
                  :: SessEvent.findObjects .certificate :: r.2
                  ++ [SessEvent.logout, SessEvent.closeSession])
        else ([], [SessEvent.openSession, SessEvent.login false])
      | none =>
        let r := certsLoop now slot.certObjects
        (r.1, SessEvent.openSession :: SessEvent.findObjects .certificate :: r.2
                ++ [SessEvent.logout, SessEvent.closeSession])

/-! ### The `TokenSigner` HSM backend -/

/-- Python `str.upper()` over the characters of the string. -/
def pythonUpper (s : String) : String :=
  String.mk (s.data.map Char.toUpper)

/-- Resolution of `getattr(PK11, 'CKM_%s_RSA_PKCS' % mech.upper())`
(line 529): the four `CKM_*_RSA_PKCS` constants PyKCS11 defines for these
digests; any other name raises `AttributeError`. -/
def ckmRsaPkcs (mech : String) : Except PyErr MechType :=
  let u := pythonUpper mech
  if u = "SHA1" then .ok .sha1
  else if u = "SHA256" then .ok .sha256
  else if u = "SHA384" then .ok .sha384
  else if u = "SHA512" then .ok .sha512
  else .error (.attributeError ("CKM_" ++ u ++ "_RSA_PKCS"))

/-- The `for pk11object in pk11objects` loop of `TokenSigner.certificate`
(lines 509-518): read `CKA_VALUE` and `CKA_ID` of each certificate
object, skipping objects whose read raises `PyKCS11Error`, and return
the first `(keyid, cert)` pair. -/
def certLoop : List CertObject → Option (List Nat × CertData) × List SessEvent
  | [] => (none, [])
  | c :: rest =>
    let ev := SessEvent.getAttr .certificate [.ckaValue, .ckaId]
    if c.attrReadable = true then (some (c.objId, c.value), [ev])
    else
      let r := certLoop rest
      (r.1, ev :: r.2)

/-- `TokenSigner.certificate` (lines 503-521): `self.login` (which opens
a session and logs in) runs before the `try`, so a wrong PIN raises with
no logout; otherwise the certificate loop runs and the `finally` logs
out (endesive closes the session on logout). -/
def tokenSignerCertificate (slot : SlotToken) (pin : String) :
    Except PyErr (Option (List Nat × CertData)) × List SessEvent :=
  if pin = slot.correctPin then
    let r := certLoop slot.certObjects
    (.ok r.1,
     SessEvent.openSession :: SessEvent.login true
       :: SessEvent.findObjects .certificate :: r.2
       ++ [SessEvent.logout, SessEvent.closeSession])
  else (.error (.pyKCS11Error "CKR_PIN_INCORRECT"),
        [SessEvent.openSession, SessEvent.login false])

/-- `TokenSigner.sign` (lines 523-535): login, find all
`CKO_PRIVATE_KEY` objects and take element `[0]` (raising `IndexError`
on an empty token; the `keyid` argument is not used in the lookup),
resolve the mechanism constant, call the native `session.sign`
primitive (which raises `CKR_MECHANISM_INVALID` when the token does not
support the mechanism), and log out in the `finally` block. -/
def tokenSignerSign (slot : SlotToken) (pin : String) (keyid data : List Nat)
    (mech : String) : Except PyErr (List Nat) × List SessEvent :=
  if pin = slot.correctPin then
    let evs := [SessEvent.openSession, SessEvent.login true,
                SessEvent.findObjects .privateKey]
    match slot.privKeys with
    | [] => (.error .indexError, evs ++ [SessEvent.logout, SessEvent.closeSession])
    | pk :: _ =>
      match ckmRsaPkcs mech with
      | .error e => (.error e, evs ++ [SessEvent.logout, SessEvent.closeSession])
      | .ok mt =>
        if mt ∈ slot.supportedMechs then
          (.ok (slot.nativeSign pk.handle data mt),
           evs ++ [SessEvent.signOp pk.handle mt, SessEvent.logout,
                   SessEvent.closeSession])
        else
          (.error (.pyKCS11Error "CKR_MECHANISM_INVALID"),
           evs ++ [SessEvent.signOp pk.handle mt, SessEvent.logout,
                   SessEvent.closeSession])
  else (.error (.pyKCS11Error "CKR_PIN_INCORRECT"),
        [SessEvent.openSession, SessEvent.login false])

/-! ### The signature dictionary and the endesive black box -/

/-- The `dct` dictionary passed to `cms.sign` (lines 553-565 and
651-663).  The rectangle coordinates are modelled as integers. -/
structure SigDict where
  sigflags : Nat
  sigpage : Nat
  contact : String
  sigLocation : String
  signingdate : String
  reason : String
  signaturebox : Option (Int × Int × Int × Int)
  signature : Option String
  sigbutton : Bool
  deriving DecidableEq, Repr

/-- Construction of `dct`: defaults for empty `location`/`reason`, and
the visible-signature entries only when `visible_signature` is truthy
AND `sig_rect` is not `None`. -/
def buildDct (reason locationArg contact : String) (sigPage : Nat) (date : String)
    (visible : Bool) (sigRect : Option (Int × Int × Int × Int))
    (signerName : String) : SigDict :=
  let base : SigDict :=
    { sigflags := 3, sigpage := sigPage,
      contact := contact,
      sigLocation := if locationArg = "" then "India" else locationArg,
      signingdate := date,
      reason := if reason = "" then "Digitally Signed" else reason,
      signaturebox := none, signature := none, sigbutton := false }
  match sigRect with
  | some r =>
    if visible = true then
      { base with signaturebox := some r, signature := some signerName,
                  sigbutton := true }
    else base
  | none => base

/-- An in-process private key extracted from a PKCS#12 container. -/
structure RSAKey where
  keyBytes : List Nat
  deriving DecidableEq, Repr

/-- Modelled from the spec: the external endesive `pdf.cms.sign` is not
part of this repository.  Following the spec (CMS Builder, section 4.6:
pure assembly of the signed-data structure, no validity checking; Digest
and Byte-Range Planner, section 4.5; Embedder, section 4.7: the output
is an incremental update appended after the original bytes), it is a
black box: `digestInput` is the byte string it hands the HSM backend to
sign, `assemble` the appended incremental update built around the
returned signature, and `signPfx` the whole container-path call signing
with the in-process key.  The theorems quantify over this structure. -/
structure CmsLib where
  digestInput : List Nat → SigDict → List Nat
  assemble : List Nat → SigDict → CertData → List Nat → List Nat
  signPfx : List Nat → SigDict → RSAKey → X509Cert → List X509Cert →
    Except PyErr (List Nat)

/-- The calls `cms.sign(datau, dct, None, None, [], 'sha256', signer)`
makes into the repository's `TokenSigner` (line 572): fetch the
certificate, fail if the signer produced none or bytes that do not parse
as a certificate, then request one raw signature over the digest input
with mechanism name `'sha256'`, and assemble the appended bytes. -/
def cmsSignHsm (cms : CmsLib) (datau : List Nat) (dct : SigDict)
    (slot : SlotToken) (pin : String) :
    Except PyErr (List Nat) × List SessEvent :=
  let c := tokenSignerCertificate slot pin
  match c.1 with
  | .error e => (.error e, c.2)
  | .ok none => (.error (.typeError "NoneType certificate"), c.2)
  | .ok (some (keyid, certData)) =>
    match certData with
    | .valid _ =>
      let s := tokenSignerSign slot pin keyid (cms.digestInput datau dct) "sha256"
      match s.1 with
      | .error e => (.error e, c.2 ++ s.2)
      | .ok sig => (.ok (cms.assemble datau dct certData sig), c.2 ++ s.2)
    | _ => (.error (.valueError "Unable to load certificate"), c.2)

/-! ### The two signing entry points -/

/-- What a signing entry point returns: the `(success, message)` pair of
the Python function, the file writes it performed as `(path, bytes)`
pairs, and the PKCS#11 trace. -/
structure SignOutcome where
  ok : Bool
  message : String
  writes : List (String × List Nat)
  trace : List SessEvent
  deriving Repr

/-- The signer-name computation of `_sign_with_endesive` (lines 541-549):
parse the first certificate returned by `signer.certificate()`; any
exception, a `(None, None)` result or an empty blob (falsy in the
`if cert_der:` test) keeps the default `"Digital Signature"`. -/
def hsmSignerName (now : Int) :
    Except PyErr (Option (List Nat × CertData)) → String
  | .ok (some (_, certData)) =>
    match certData with
    | .empty => "Digital Signature"
    | cd => (parseCertificate now cd).subject
  | _ => "Digital Signature"

/-- `PDFSignature._sign_with_endesive` (lines 473-586): read the signer
name via a first `signer.certificate()` call, build `dct`, read the
input bytes, run `cms.sign`, and only then write `datau + datas` to the
output path. -/
def signWithEndesive (cms : CmsLib) (slot : SlotToken) (pin : String)
    (datau : List Nat) (outputFile : String)
    (reason locationArg contact : String) (visible : Bool) (sigPage : Nat)
    (sigRect : Option (Int × Int × Int × Int)) (now : Int) (date : String) :
    Except PyErr (String × List (String × List Nat)) × List SessEvent :=
  let c := tokenSignerCertificate slot pin
  let signerName := hsmSignerName now c.1
  let dct := buildDct reason locationArg contact sigPage date visible sigRect signerName
  let s := cmsSignHsm cms datau dct slot pin
  match s.1 with
  | .error e => (.error e, c.2 ++ s.2)
  | .ok datas =>
    (.ok ("PDF signed successfully by: " ++ signerName,
          [(outputFile, datau ++ datas)]),
     c.2 ++ s.2)

/-- `PDFSignature.sign_pdf_with_token` (lines 423-471): delegate to
`_sign_with_endesive`; any exception is caught and reported as the
generic `(False, "Signing failed: " + str(e))`. -/
def signPdfWithToken (cms : CmsLib) (slot : SlotToken) (pin : String)
    (datau : List Nat) (outputFile : String)
    (reason locationArg contact : String) (visible : Bool) (sigPage : Nat)
    (sigRect : Option (Int × Int × Int × Int)) (now : Int) (date : String) :
    SignOutcome :=
  let r := signWithEndesive cms slot pin datau outputFile reason locationArg
    contact visible sigPage sigRect now date
  match r.1 with
  | .ok (msg, ws) => { ok := true, message := msg, writes := ws, trace := r.2 }
  | .error e =>
    { ok := false, message := "Signing failed: " ++ pyErrStr e,
      writes := [], trace := r.2 }

/-- Outcome of `pkcs12.load_key_and_certificates` on a container:
parsed contents (each part possibly absent), a `ValueError` whose text
mentions the password, or another `ValueError`. -/
inductive PfxParse
  | parsed (key : Option RSAKey) (cert : Option X509Cert) (extra : List X509Cert)
  | badPassword
  | invalid (msg : String)

/-- A PKCS#12 file on disk: presence, and parse outcome per password. -/
structure PfxFile where
  present : Bool
  parse : String → PfxParse

/-- `PDFSignature.sign_pdf_with_pfx` (lines 588-699): load and parse the
container, take the subject CN as signer name (default `"Unknown"`),
check `now` against the certificate validity window with the
timezone-aware `dt.now(timezone.utc)`, build `dct`, run `cms.sign` with
the in-process key, and only then write `datau + datas` to the output
path.  Every failure returns before any write. -/
def signPdfWithPfx (cms : CmsLib) (pfx : PfxFile) (pfxPath password : String)
    (datau : List Nat) (outputFile : String)
    (reason locationArg contact : String) (visible : Bool) (sigPage : Nat)
    (sigRect : Option (Int × Int × Int × Int)) (now : Int) (date : String) :
    SignOutcome :=
  if pfx.present = false then
    { ok := false, message := "Certificate file not found: " ++ pfxPath,
      writes := [], trace := [] }
  else
    match pfx.parse password with
    | .badPassword =>
      { ok := false, message := "Incorrect certificate password",
        writes := [], trace := [] }
    | .invalid m =>
      { ok := false, message := "Invalid certificate file: " ++ m,
        writes := [], trace := [] }
    | .parsed key? cert? extra =>
      match key?, cert? with
      | some key, some cert =>
        let signerName := if cert.commonName = "" then "Unknown" else cert.commonName
        if now < cert.notValidBefore ∨ cert.notValidAfter < now then
          { ok := false,
            message := "Certificate has expired or is not yet valid. Valid from: "
              ++ toString cert.notValidBefore ++ " Valid until: "
              ++ toString cert.notValidAfter,
            writes := [], trace := [] }
        else
          let dct := buildDct reason locationArg contact sigPage date visible
            sigRect signerName
          match cms.signPfx datau dct key cert extra with
          | .error e =>
            { ok := false, message := "Error signing PDF: " ++ pyErrStr e,
              writes := [], trace := [] }
          | .ok datas =>
            { ok := true, message := "PDF signed successfully by: " ++ signerName,
              writes := [(outputFile, datau ++ datas)], trace := [] }
      | _, _ =>
        { ok := false, message := "No certificate or private key found in PFX file",
          writes := [], trace := [] }

/-! ### Trace predicates -/

/-- The event is a session open. -/
def SessEvent.isOpen : SessEvent → Bool
  | .openSession => true
  | _ => false

/-- The event is a session close. -/
def SessEvent.isClose : SessEvent → Bool
  | .closeSession => true
  | _ => false

/-- The event reads attributes of a private-key object. -/
def SessEvent.readsPrivateKey : SessEvent → Bool
  | .getAttr .privateKey _ => true
  | _ => false

/-- The event is a native sign call with a mechanism other than `m`. -/
def SessEvent.signOpOther (m : MechType) : SessEvent → Bool
  | .signOp _ m2 => decide (m2 ≠ m)
  | _ => false

/-- Replace every private-key object raw value on the token by `[]`,
leaving handles, ids and everything else unchanged. -/
def SlotToken.eraseKeyValues (s : SlotToken) : SlotToken :=
  { s with privKeys := s.privKeys.map fun k => { k with keyValue := [] } }

/-! ### Helper lemmas -/

/-- The `is_valid` entry of `_parse_certificate` compares an offset-aware
and an offset-naive datetime, which raises, so the function returns the
failure dictionary for every input. -/
theorem parseCertificate_eq_unknown (now : Int) (cd : CertData) :
    parseCertificate now cd = unknownCertInfo := by
  cases cd <;> rfl

/-- The serial of a built token dictionary is the slot serial key. -/
theorem mkDetectedToken_serial (now : Int) (dll : String) (s : SlotToken) :
    (mkDetectedToken now dll s).serial = s.serialKey := rfl

/-- Behaviour of the slot loop of `detect_usb_tokens` with respect to the
`seen_serials` accumulator: the serials of the emitted tokens are exactly
the reachable slot serials not yet seen, they are pairwise distinct, and
the returned accumulator is the old one plus the emitted serials. -/
theorem detectSlotsAux_spec (now : Int) (dll : String) (slots : List SlotToken) :
    ∀ seen : List String,
      (∀ x, x ∈ (detectSlotsAux now dll slots seen).2.map DetectedToken.serial ↔
        (SlotSerial slots x ∧ x ∉ seen)) ∧
      ((detectSlotsAux now dll slots seen).2.map DetectedToken.serial).Nodup ∧
      (∀ x, x ∈ (detectSlotsAux now dll slots seen).1 ↔
        x ∈ seen ∨ x ∈ (detectSlotsAux now dll slots seen).2.map DetectedToken.serial) := by
  induction slots with
  | nil =>
    intro seen
    simp [detectSlotsAux, SlotSerial]
  | cons s rest ih =>
    intro seen
    by_cases hinfo : s.infoOk = true
    · by_cases hseen : s.serialKey ∈ seen
      · have hd : detectSlotsAux now dll (s :: rest) seen =
            detectSlotsAux now dll rest seen := by
          simp [detectSlotsAux, hinfo, hseen]
        rw [hd]
        obtain ⟨h1, h2, h3⟩ := ih seen
        refine ⟨fun x => ?_, h2, h3⟩
        rw [h1 x]
        constructor
        · rintro ⟨hs, hn⟩; exact ⟨Or.inr hs, hn⟩
        · rintro ⟨hs, hn⟩
          rcases hs with ⟨_, rfl⟩ | hs
          · exact absurd hseen hn
          · exact ⟨hs, hn⟩
      · have hd : detectSlotsAux now dll (s :: rest) seen =
            ((detectSlotsAux now dll rest (s.serialKey :: seen)).1,
             mkDetectedToken now dll s ::
               (detectSlotsAux now dll rest (s.serialKey :: seen)).2) := by
          simp [detectSlotsAux, hinfo, hseen]
        rw [hd]
        obtain ⟨h1, h2, h3⟩ := ih (s.serialKey :: seen)
        refine ⟨fun x => ?_, ?_, fun x => ?_⟩
        · simp only [List.map_cons, List.mem_cons, mkDetectedToken_serial]
          rw [h1 x]
          constructor
          · rintro (rfl | ⟨hs, hn⟩)
            · exact ⟨Or.inl ⟨hinfo, rfl⟩, hseen⟩
            · exact ⟨Or.inr hs, fun hx => hn (List.mem_cons_of_mem _ hx)⟩
          · rintro ⟨⟨_, rfl⟩ | hs, hn⟩
            · exact Or.inl rfl
            · by_cases hx : x = s.serialKey
              · exact Or.inl hx
              · exact Or.inr ⟨hs, by
                  intro hmem
                  rcases List.mem_cons.mp hmem with h | h
                  · exact hx h
                  · exact hn h⟩
        · simp only [List.map_cons, List.nodup_cons, mkDetectedToken_serial]
          refine ⟨fun hmem => ?_, h2⟩
          have := (h1 s.serialKey).mp hmem
          exact this.2 (List.mem_cons_self _ _)
        · rw [h3 x]
          simp only [List.mem_cons, List.map_cons, mkDetectedToken_serial]
          tauto
    · have hd : detectSlotsAux now dll (s :: rest) seen =
          detectSlotsAux now dll rest seen := by
        simp [detectSlotsAux, hinfo]
      rw [hd]
      obtain ⟨h1, h2, h3⟩ := ih seen
      refine ⟨fun x => ?_, h2, h3⟩
      rw [h1 x]
      constructor
      · rintro ⟨hs, hn⟩; exact ⟨Or.inr hs, hn⟩
      · rintro ⟨hs, hn⟩
        rcases hs with ⟨hbad, _⟩ | hs
        · exact absurd hbad hinfo
        · exact ⟨hs, hn⟩

/-- Behaviour of the module loop of `detect_usb_tokens`: the serials of
the returned tokens are exactly the reachable serials not in the initial
accumulator, with no duplicates. -/
theorem detectModulesAux_spec (now : Int) (ms : List ModuleEnv) :
    ∀ seen : List String,
      (∀ x, x ∈ (detectModulesAux now ms seen).map DetectedToken.serial ↔
        (ReachableSerial ms x ∧ x ∉ seen)) ∧
      ((detectModulesAux now ms seen).map DetectedToken.serial).Nodup := by
  induction ms with
  | nil =>
    intro seen
    simp [detectModulesAux, ReachableSerial]
  | cons m rest ih =>
    intro seen
    by_cases hm : (m.pathExists && m.loadOk) = true
    · have hd : detectModulesAux now (m :: rest) seen =
          (detectSlotsAux now m.dllPath m.slots seen).2 ++
            detectModulesAux now rest (detectSlotsAux now m.dllPath m.slots seen).1 := by
        simp [detectModulesAux, hm]
      rw [hd]
      obtain ⟨s1, s2, s3⟩ := detectSlotsAux_spec now m.dllPath m.slots seen
      obtain ⟨r1, r2⟩ := ih (detectSlotsAux now m.dllPath m.slots seen).1
      constructor
      · intro x
        simp only [List.map_append, List.mem_append]
        rw [s1 x, r1 x]
        constructor
        · rintro (⟨hs, hn⟩ | ⟨hr, hn⟩)
          · exact ⟨Or.inl ⟨hm, hs⟩, hn⟩
          · exact ⟨Or.inr hr, fun hx => hn ((s3 x).mpr (Or.inl hx))⟩
        · rintro ⟨⟨_, hs⟩ | hr, hn⟩
          · exact Or.inl ⟨hs, hn⟩
          · by_cases hx : x ∈ (detectSlotsAux now m.dllPath m.slots seen).2.map
                DetectedToken.serial
            · exact Or.inl ((s1 x).mp hx)
            · refine Or.inr ⟨hr, fun hmem => ?_⟩
              rcases (s3 x).mp hmem with h | h
              · exact hn h
              · exact hx h
      · simp only [List.map_append]
        rw [List.nodup_append]
        refine ⟨s2, r2, fun x hx hx2 => ?_⟩
        have h1 := (r1 x).mp hx2
        exact h1.2 ((s3 x).mpr (Or.inr hx))
    · have hd : detectModulesAux now (m :: rest) seen =
          detectModulesAux now rest seen := by
        simp [detectModulesAux, hm]
      rw [hd]
      obtain ⟨r1, r2⟩ := ih seen
      refine ⟨fun x => ?_, r2⟩
      rw [r1 x]
      constructor
      · rintro ⟨hr, hn⟩; exact ⟨Or.inr hr, hn⟩
      · rintro ⟨hr, hn⟩
        rcases hr with ⟨hbad, _⟩ | hr
        · exact absurd hbad hm
        · exact ⟨hr, hn⟩

/-! ### Concrete instances used by the closed theorems -/

/-- A parseable certificate with a subject CN. -/
def aliceCert : X509Cert :=
  { commonName := "Alice Example", subjectDN := "CN=Alice Example",
    organization := "Acme", issuerDN := "CN=Test CA", serialNumber := 77,
    notValidBefore := 0, notValidAfter := 100000 }

/-- The same certificate with a validity window ending at time 10. -/
def expiredCert : X509Cert :=
  { aliceCert with notValidAfter := 10 }

/-- Token metadata of the demonstration token. -/
def demoTokenInfo : TokenInfo :=
  { label := "MyToken", manufacturerID := "WD", model := "ProxKey",
    serialNumber := "SER1", flags := 1 }

/-- A readable certificate object holding `aliceCert`. -/
def demoCertObject : CertObject :=
  { attrReadable := true, value := .valid aliceCert, objId := [1], objLabel := "crt" }

/-- A healthy single-identity token: PIN `"1234"`, one certificate, one
private key, SHA-256 signing supported. -/
def demoSlot : SlotToken :=
  { slotId := 0, infoOk := true, tokenInfo := demoTokenInfo,
    certObjects := [demoCertObject],
    privKeys := [{ handle := 1, keyId := [1], keyValue := [250, 251] }],
    supportedMechs := [.sha256], correctPin := "1234",
    nativeSign := fun h d _ => h :: d }

/-- A module exposing the demonstration token. -/
def demoModule : ModuleEnv :=
  { dllPath := "/usr/lib/libeps2003csp11.so", pathExists := true,
    loadOk := true, slots := [demoSlot] }

/-- A concrete instantiation of the endesive black box. -/
def cmsTriv : CmsLib :=
  { digestInput := fun d _ => d,
    assemble := fun _ _ _ sig => 70 :: sig,
    signPfx := fun _ _ _ _ _ => .ok [80, 81] }

/-- The demonstration token with its certificate replaced by the expired
one. -/
def expiredSlot : SlotToken :=
  { demoSlot with
    certObjects := [{ attrReadable := true, value := .valid expiredCert,
                      objId := [1], objLabel := "crt" }] }

/-- The demonstration token holding two private keys with distinct
`CKA_ID`s and handles. -/
def twoKeySlot : SlotToken :=
  { demoSlot with
    privKeys := [{ handle := 1, keyId := [1], keyValue := [101] },
                 { handle := 2, keyId := [9], keyValue := [102] }] }

/-- The demonstration token supporting only SHA-1 signing. -/
def sha1OnlySlot : SlotToken :=
  { demoSlot with supportedMechs := [.sha1] }

/-- A present PKCS#12 container holding the expired certificate, with
passphrase `"secret"`. -/
def expiredPfx : PfxFile :=
  { present := true,
    parse := fun pw =>
      if pw = "secret" then .parsed (some ⟨[3, 4]⟩) (some expiredCert) []
      else .badPassword }

/-! ### More helper lemmas -/

/-- The hardware-path signer name does not depend on the clock, because
`_parse_certificate` always returns the failure dictionary. -/
theorem hsmSignerName_eq (now now2 : Int)
    (r : Except PyErr (Option (List Nat × CertData))) :
    hsmSignerName now r = hsmSignerName now2 r := by
  rcases r with e | o
  · rfl
  · rcases o with _ | ⟨kid, cd⟩
    · rfl
    · cases cd <;> simp [hsmSignerName, parseCertificate_eq_unknown]

/-- With the right PIN, `TokenSigner.certificate` returns the first
readable certificate object. -/
theorem tokenSignerCertificate_ok (slot : SlotToken) (pin : String)
    (hp : pin = slot.correctPin) :
    (tokenSignerCertificate slot pin).1 = .ok (certLoop slot.certObjects).1 := by
  simp [tokenSignerCertificate, hp]

/-- The mechanism constant for the digest name `'sha256'`. -/
theorem ckmRsaPkcs_sha256 : ckmRsaPkcs "sha256" = .ok .sha256 := rfl

/-- With the right PIN and at least one private key, `TokenSigner.sign`
resolves the sign call on the FIRST private-key object. -/
theorem tokenSignerSign_result (slot : SlotToken) (pin : String)
    (keyid data : List Nat) (pk : PrivKeyObject) (rest : List PrivKeyObject)
    (hp : pin = slot.correctPin) (hk : slot.privKeys = pk :: rest) :
    tokenSignerSign slot pin keyid data "sha256" =
      if MechType.sha256 ∈ slot.supportedMechs then
        (.ok (slot.nativeSign pk.handle data .sha256),
         [SessEvent.openSession, SessEvent.login true,
          SessEvent.findObjects .privateKey, SessEvent.signOp pk.handle .sha256,
          SessEvent.logout, SessEvent.closeSession])
      else
        (.error (.pyKCS11Error "CKR_MECHANISM_INVALID"),
         [SessEvent.openSession, SessEvent.login true,
          SessEvent.findObjects .privateKey, SessEvent.signOp pk.handle .sha256,
          SessEvent.logout, SessEvent.closeSession]) := by
  by_cases hm : MechType.sha256 ∈ slot.supportedMechs <;>
    simp [tokenSignerSign, hp, hk, ckmRsaPkcs_sha256, hm]

/-- Counting events of one kind in the certificate loop of
`TokenSigner.certificate`: every event is a certificate-attribute read,
so any predicate false on those counts zero. -/
theorem certLoop_countP (p : SessEvent → Bool)
    (hp : ∀ a, p (SessEvent.getAttr .certificate a) = false) :
    ∀ l : List CertObject, (certLoop l).2.countP p = 0 := by
  intro l
  induction l with
  | nil => rfl
  | cons c rest ih =>
    by_cases h : c.attrReadable = true <;>
      simp [certLoop, h, List.countP_cons, hp, ih]

/-- The same for the CN loop of `_read_certificate_cn_from_token`. -/
theorem readCNLoop_countP (now : Int) (p : SessEvent → Bool)
    (hp : ∀ a, p (SessEvent.getAttr .certificate a) = false) :
    ∀ l : List CertObject, (readCNLoop now l).2.countP p = 0 := by
  intro l
  induction l with
  | nil => rfl
  | cons c rest ih =>
    by_cases h : c.attrReadable = false
    · simp [readCNLoop, h, List.countP_cons, hp, ih]
    · cases hv : c.value <;>
        simp [readCNLoop, h, hv, parseCertificate_eq_unknown, unknownCertInfo,
              List.countP_cons, hp, ih]

/-- The same for the enumeration loop of `get_certificates_from_token`. -/
theorem certsLoop_countP (now : Int) (p : SessEvent → Bool)
    (hp : ∀ a, p (SessEvent.getAttr .certificate a) = false) :
    ∀ l : List CertObject, (certsLoop now l).2.countP p = 0 := by
  intro l
  induction l with
  | nil => rfl
  | cons c rest ih =>
    by_cases h : c.attrReadable = true <;>
      simp [certsLoop, h, List.countP_cons, hp, ih]

/-- No event of the `TokenSigner.certificate` trace reads private-key
attributes, and no event of it is a sign call. -/
theorem tokenSignerCertificate_countP (slot : SlotToken) (pin : String)
    (p : SessEvent → Bool)
    (hattr : ∀ a, p (SessEvent.getAttr .certificate a) = false)
    (hopen : p SessEvent.openSession = false)
    (hclose : p SessEvent.closeSession = false)
    (hlogin : ∀ b, p (SessEvent.login b) = false)
    (hlogout : p SessEvent.logout = false)
    (hfind : ∀ c, p (SessEvent.findObjects c) = false) :
    (tokenSignerCertificate slot pin).2.countP p = 0 := by
  by_cases h : pin = slot.correctPin <;>
    simp [tokenSignerCertificate, h, List.countP_cons, List.countP_append,
          certLoop_countP p hattr, hopen, hclose, hlogin, hlogout, hfind]

/-- Events of the `TokenSigner.sign` trace: any predicate false on the
bookkeeping events and on every sign call it can emit counts zero. -/
theorem tokenSignerSign_countP (slot : SlotToken) (pin : String)
    (keyid data : List Nat) (mech : String) (p : SessEvent → Bool)
    (hopen : p SessEvent.openSession = false)
    (hclose : p SessEvent.closeSession = false)
    (hlogin : ∀ b, p (SessEvent.login b) = false)
    (hlogout : p SessEvent.logout = false)
    (hfind : ∀ c, p (SessEvent.findObjects c) = false)
    (hsign : ∀ h mt, ckmRsaPkcs mech = .ok mt →
      p (SessEvent.signOp h mt) = false) :
    (tokenSignerSign slot pin keyid data mech).2.countP p = 0 := by
  by_cases h : pin = slot.correctPin
  · rcases hk : slot.privKeys with _ | ⟨pk, rest⟩
    · simp [tokenSignerSign, h, hk, List.countP_cons, List.countP_append,
            hopen, hclose, hlogin, hlogout, hfind]
    · rcases hm : ckmRsaPkcs mech with e | mt
      · simp [tokenSignerSign, h, hk, hm, List.countP_cons, List.countP_append,
              hopen, hclose, hlogin, hlogout, hfind]
      · by_cases hs : mt ∈ slot.supportedMechs <;>
          simp [tokenSignerSign, h, hk, hm, hs, List.countP_cons,
                List.countP_append, hopen, hclose, hlogin, hlogout, hfind,
                hsign _ mt hm]
  · simp [tokenSignerSign, h, List.countP_cons, hopen, hlogin]

/-- The whole hardware-path trace counts zero for any predicate false on
every event kind the path can emit. -/
theorem signPdfWithToken_countP (cms : CmsLib) (slot : SlotToken) (pin : String)
    (datau : List Nat) (outputFile reason locationArg contact : String)
    (visible : Bool) (sigPage : Nat) (sigRect : Option (Int × Int × Int × Int))
    (now : Int) (date : String) (p : SessEvent → Bool)
    (hattr : ∀ a, p (SessEvent.getAttr .certificate a) = false)
    (hopen : p SessEvent.openSession = false)
    (hclose : p SessEvent.closeSession = false)
    (hlogin : ∀ b, p (SessEvent.login b) = false)
    (hlogout : p SessEvent.logout = false)
    (hfind : ∀ c, p (SessEvent.findObjects c) = false)
    (hsign : ∀ h, p (SessEvent.signOp h .sha256) = false) :
    (signPdfWithToken cms slot pin datau outputFile reason locationArg contact
      visible sigPage sigRect now date).trace.countP p = 0 := by
  have hsign2 : ∀ h mt, ckmRsaPkcs "sha256" = .ok mt →
      p (SessEvent.signOp h mt) = false := by
    intro h mt hmt
    rw [ckmRsaPkcs_sha256] at hmt
    simp only [Except.ok.injEq] at hmt
    subst hmt
    exact hsign h
  have hcert := tokenSignerCertificate_countP slot pin p hattr hopen hclose
    hlogin hlogout hfind
  have hcms : ∀ dct, (cmsSignHsm cms datau dct slot pin).2.countP p = 0 := by
    intro dct
    unfold cmsSignHsm
    rcases hc : (tokenSignerCertificate slot pin).1 with e | o
    · simpa [hc] using hcert
    · rcases o with _ | ⟨kid, cd⟩
      · simpa [hc] using hcert
      · cases cd with
        | empty => simpa [hc] using hcert
        | malformed => simpa [hc] using hcert
        | valid xc =>
          rcases hs2 : (tokenSignerSign slot pin kid
              (cms.digestInput datau dct) "sha256").1 with e2 | sig <;>
            · have hsig := tokenSignerSign_countP slot pin kid
                (cms.digestInput datau dct) "sha256" p hopen hclose hlogin
                hlogout hfind hsign2
              simp [hc, hs2, List.countP_append, hcert, hsig]
  unfold signPdfWithToken signWithEndesive
  rcases hs : (cmsSignHsm cms datau
      (buildDct reason locationArg contact sigPage date visible sigRect
        (hsmSignerName now (tokenSignerCertificate slot pin).1)) slot pin).1 with
    e | datas <;>
    · have := hcms (buildDct reason locationArg contact sigPage date visible
        sigRect (hsmSignerName now (tokenSignerCertificate slot pin).1))
      simp_all [List.countP_append, hcert]

/-- Erasing private-key raw values changes nothing `TokenSigner.certificate`
touches. -/
theorem tokenSignerCertificate_erase (slot : SlotToken) (pin : String) :
    tokenSignerCertificate slot.eraseKeyValues pin = tokenSignerCertificate slot pin := rfl

/-- `TokenSigner.sign` never reads the raw key value: its result only
depends on the key handle, which erasing preserves. -/
theorem tokenSignerSign_erase (slot : SlotToken) (pin : String)
    (keyid data : List Nat) (mech : String) :
    tokenSignerSign slot.eraseKeyValues pin keyid data mech =
      tokenSignerSign slot pin keyid data mech := by
  rcases hk : slot.privKeys with _ | ⟨pk, rest⟩ <;>
    simp [tokenSignerSign, SlotToken.eraseKeyValues, hk]

/-- The whole hardware entry point is invariant under erasing the raw
private-key values on the token. -/
theorem signPdfWithToken_erase (cms : CmsLib) (slot : SlotToken) (pin : String)
    (datau : List Nat) (outputFile reason locationArg contact : String)
    (visible : Bool) (sigPage : Nat) (sigRect : Option (Int × Int × Int × Int))
    (now : Int) (date : String) :
    signPdfWithToken cms slot.eraseKeyValues pin datau outputFile reason
      locationArg contact visible sigPage sigRect now date =
    signPdfWithToken cms slot pin datau outputFile reason locationArg contact
      visible sigPage sigRect now date := by
  unfold signPdfWithToken signWithEndesive cmsSignHsm
  rw [tokenSignerCertificate_erase]
  simp only [tokenSignerSign_erase]

/-! ### Outcome shapes of the two entry points -/

/-- When `_sign_with_endesive` succeeds, its single write is the original
bytes followed by the appended bytes, at the output path. -/
theorem signWithEndesive_ok_shape (cms : CmsLib) (slot : SlotToken) (pin : String)
    (datau : List Nat) (outputFile reason locationArg contact : String)
    (visible : Bool) (sigPage : Nat) (sigRect : Option (Int × Int × Int × Int))
    (now : Int) (date : String) (msg : String) (ws : List (String × List Nat))
    (h : (signWithEndesive cms slot pin datau outputFile reason locationArg
      contact visible sigPage sigRect now date).1 = .ok (msg, ws)) :
    ∃ datas, ws = [(outputFile, datau ++ datas)] := by
  unfold signWithEndesive at h
  dsimp only at h
  rcases hs : (cmsSignHsm cms datau
      (buildDct reason locationArg contact sigPage date visible sigRect
        (hsmSignerName now (tokenSignerCertificate slot pin).1)) slot pin).1 with
    e | datas
  · rw [hs] at h
    simp at h
  · rw [hs] at h
    simp only [Except.ok.injEq, Prod.mk.injEq] at h
    exact ⟨datas, h.2.symm⟩

/-- The hardware entry point either fails having written nothing, or
succeeds with exactly one write: the original bytes plus appended bytes
at the output path. -/
theorem signPdfWithToken_shape (cms : CmsLib) (slot : SlotToken) (pin : String)
    (datau : List Nat) (outputFile reason locationArg contact : String)
    (visible : Bool) (sigPage : Nat) (sigRect : Option (Int × Int × Int × Int))
    (now : Int) (date : String) :
    ((signPdfWithToken cms slot pin datau outputFile reason locationArg contact
        visible sigPage sigRect now date).ok = false ∧
     (signPdfWithToken cms slot pin datau outputFile reason locationArg contact
        visible sigPage sigRect now date).writes = []) ∨
    ((signPdfWithToken cms slot pin datau outputFile reason locationArg contact
        visible sigPage sigRect now date).ok = true ∧
     ∃ datas, (signPdfWithToken cms slot pin datau outputFile reason locationArg
        contact visible sigPage sigRect now date).writes =
          [(outputFile, datau ++ datas)]) := by
  rcases hr : (signWithEndesive cms slot pin datau outputFile reason locationArg
      contact visible sigPage sigRect now date).1 with e | ⟨msg, ws⟩
  · left
    simp [signPdfWithToken, hr]
  · right
    have := signWithEndesive_ok_shape cms slot pin datau outputFile reason
      locationArg contact visible sigPage sigRect now date msg ws hr
    simp [signPdfWithToken, hr, this]

/-- The container entry point either fails having written nothing, or
succeeds with exactly one write: the original bytes plus appended bytes
at the output path. -/
theorem signPdfWithPfx_shape (cms : CmsLib) (pfx : PfxFile)
    (pfxPath password : String) (datau : List Nat)
    (outputFile reason locationArg contact : String) (visible : Bool)
    (sigPage : Nat) (sigRect : Option (Int × Int × Int × Int)) (now : Int)
    (date : String) :
    ((signPdfWithPfx cms pfx pfxPath password datau outputFile reason
        locationArg contact visible sigPage sigRect now date).ok = false ∧
     (signPdfWithPfx cms pfx pfxPath password datau outputFile reason
        locationArg contact visible sigPage sigRect now date).writes = []) ∨
    ((signPdfWithPfx cms pfx pfxPath password datau outputFile reason
        locationArg contact visible sigPage sigRect now date).ok = true ∧
     ∃ datas, (signPdfWithPfx cms pfx pfxPath password datau outputFile reason
        locationArg contact visible sigPage sigRect now date).writes =
          [(outputFile, datau ++ datas)]) := by
  unfold signPdfWithPfx
  dsimp only
  repeat' split
  all_goals first
    | exact Or.inl ⟨rfl, rfl⟩
    | exact Or.inr ⟨rfl, _, rfl⟩

/-- With the right PIN and a readable, parseable certificate, the
`cms.sign` hardware call reduces to the raw sign request on the token. -/
theorem cmsSignHsm_result (cms : CmsLib) (datau : List Nat) (dct : SigDict)
    (slot : SlotToken) (pin : String) (kid : List Nat) (x : X509Cert)
    (hp : pin = slot.correctPin)
    (hc : (certLoop slot.certObjects).1 = some (kid, .valid x)) :
    (cmsSignHsm cms datau dct slot pin).1 =
      match (tokenSignerSign slot pin kid (cms.digestInput datau dct) "sha256").1 with
      | .error e => .error e
      | .ok sig => .ok (cms.assemble datau dct (.valid x) sig) := by
  unfold cmsSignHsm
  dsimp only
  rw [tokenSignerCertificate_ok slot pin hp, hc]
  rcases hs : (tokenSignerSign slot pin kid
      (cms.digestInput datau dct) "sha256").1 with e | sig <;> simp [hs]

/-- On a healthy token (right PIN, readable parseable certificate, at
least one private key, SHA-256 supported) the hardware entry point
succeeds. -/
theorem signPdfWithToken_ok_of (cms : CmsLib) (slot : SlotToken) (pin : String)
    (datau : List Nat) (outputFile reason locationArg contact : String)
    (visible : Bool) (sigPage : Nat) (sigRect : Option (Int × Int × Int × Int))
    (now : Int) (date : String) (kid : List Nat) (x : X509Cert)
    (pk : PrivKeyObject) (rest : List PrivKeyObject)
    (hp : pin = slot.correctPin)
    (hc : (certLoop slot.certObjects).1 = some (kid, .valid x))
    (hk : slot.privKeys = pk :: rest)
    (hm : MechType.sha256 ∈ slot.supportedMechs) :
    (signPdfWithToken cms slot pin datau outputFile reason locationArg contact
      visible sigPage sigRect now date).ok = true := by
  unfold signPdfWithToken signWithEndesive
  dsimp only
  rw [cmsSignHsm_result cms datau _ slot pin kid x hp hc,
      tokenSignerSign_result slot pin kid _ pk rest hp hk, if_pos hm]

/-- On a token that does not support SHA-256 signing (right PIN,
readable parseable certificate, at least one private key) the hardware
entry point fails through the generic handler with the token error text. -/
theorem signPdfWithToken_mech_fail (cms : CmsLib) (slot : SlotToken)
    (pin : String) (datau : List Nat)
    (outputFile reason locationArg contact : String) (visible : Bool)
    (sigPage : Nat) (sigRect : Option (Int × Int × Int × Int)) (now : Int)
    (date : String) (kid : List Nat) (x : X509Cert) (pk : PrivKeyObject)
    (rest : List PrivKeyObject)
    (hp : pin = slot.correctPin)
    (hc : (certLoop slot.certObjects).1 = some (kid, .valid x))
    (hk : slot.privKeys = pk :: rest)
    (hm : MechType.sha256 ∉ slot.supportedMechs) :
    (signPdfWithToken cms slot pin datau outputFile reason locationArg contact
      visible sigPage sigRect now date).ok = false ∧
    (signPdfWithToken cms slot pin datau outputFile reason locationArg contact
      visible sigPage sigRect now date).writes = [] ∧
    (signPdfWithToken cms slot pin datau outputFile reason locationArg contact
      visible sigPage sigRect now date).message =
        "Signing failed: CKR_MECHANISM_INVALID" := by
  unfold signPdfWithToken signWithEndesive
  dsimp only
  rw [cmsSignHsm_result cms datau _ slot pin kid x hp hc,
      tokenSignerSign_result slot pin kid _ pk rest hp hk, if_neg hm]
  exact ⟨rfl, rfl, rfl⟩

/-! ### The claims -/

/-- C1: for every successful signing operation, hardware-token or
PKCS#12 path, the single write to the output path is the input bytes
followed verbatim by the appended incremental-update block, so every
output byte that has a corresponding input byte (index below the input
length) equals it: `output.take |input| = input`, and pointwise
`output[i] = input[i]` for `i < |input|`.  The reserved placeholder
lies inside the appended block, past every original byte, so nothing
outside the placeholder that existed in the input is ever rewritten. -/
theorem signed_output_preserves_original_bytes
    (cms : CmsLib) (slot : SlotToken) (pin : String) (datau : List Nat)
    (outputFile reason locationArg contact : String) (visible : Bool)
    (sigPage : Nat) (sigRect : Option (Int × Int × Int × Int)) (now : Int)
    (date : String) (pfx : PfxFile) (pfxPath password : String) :
    ((signPdfWithToken cms slot pin datau outputFile reason locationArg contact
        visible sigPage sigRect now date).ok = true →
      ∃ datas,
        (signPdfWithToken cms slot pin datau outputFile reason locationArg
          contact visible sigPage sigRect now date).writes =
            [(outputFile, datau ++ datas)] ∧
        (datau ++ datas).take datau.length = datau ∧
        ∀ i, i < datau.length → (datau ++ datas)[i]? = datau[i]?) ∧
    ((signPdfWithPfx cms pfx pfxPath password datau outputFile reason
        locationArg contact visible sigPage sigRect now date).ok = true →
      ∃ datas,
        (signPdfWithPfx cms pfx pfxPath password datau outputFile reason
          locationArg contact visible sigPage sigRect now date).writes =
            [(outputFile, datau ++ datas)] ∧
        (datau ++ datas).take datau.length = datau ∧
        ∀ i, i < datau.length → (datau ++ datas)[i]? = datau[i]?) := by
  constructor
  · intro hok
    rcases signPdfWithToken_shape cms slot pin datau outputFile reason
        locationArg contact visible sigPage sigRect now date with
      ⟨hf, _⟩ | ⟨_, datas, hw⟩
    · rw [hok] at hf; exact Bool.noConfusion hf
    · exact ⟨datas, hw, List.take_left _ _,
        fun i hi => List.getElem?_append_left hi⟩
  · intro hok
    rcases signPdfWithPfx_shape cms pfx pfxPath password datau outputFile
        reason locationArg contact visible sigPage sigRect now date with
      ⟨hf, _⟩ | ⟨_, datas, hw⟩
    · rw [hok] at hf; exact Bool.noConfusion hf
    · exact ⟨datas, hw, List.take_left _ _,
        fun i hi => List.getElem?_append_left hi⟩

/-- Witness for C1: a concrete successful hardware signing on the healthy
demonstration token, with the input `[9, 9]` preserved as a prefix. -/
theorem signed_output_preserves_original_bytes_witness :
    ∃ datas,
      (signPdfWithToken cmsTriv demoSlot "1234" [9, 9] "out.pdf" "r" "l" "c"
        true 0 none 50 "D").writes = [("out.pdf", [9, 9] ++ datas)] ∧
      ([9, 9] ++ datas).take ([9, 9] : List Nat).length = [9, 9] ∧
      ∀ i, i < ([9, 9] : List Nat).length →
        ([9, 9] ++ datas)[i]? = ([9, 9] : List Nat)[i]? :=
  (signed_output_preserves_original_bytes cmsTriv demoSlot "1234" [9, 9]
    "out.pdf" "r" "l" "c" true 0 none 50 "D" expiredPfx "a.pfx" "bad").1
    (by rfl)

/-- C2: no hardware signing operation ever reads private-key attributes
through the session: every `getAttributeValue` the whole flow performs
targets a certificate object, and the outcome (result, message, writes,
trace) is unchanged when every raw private-key value on the token is
erased — only the key handle and the computed signature bytes cross the
boundary. -/
theorem hardware_signing_never_reads_private_key
    (cms : CmsLib) (slot : SlotToken) (pin : String) (datau : List Nat)
    (outputFile reason locationArg contact : String) (visible : Bool)
    (sigPage : Nat) (sigRect : Option (Int × Int × Int × Int)) (now : Int)
    (date : String) :
    ((signPdfWithToken cms slot pin datau outputFile reason locationArg contact
        visible sigPage sigRect now date).trace.countP
          SessEvent.readsPrivateKey = 0) ∧
    (signPdfWithToken cms slot.eraseKeyValues pin datau outputFile reason
        locationArg contact visible sigPage sigRect now date =
      signPdfWithToken cms slot pin datau outputFile reason locationArg contact
        visible sigPage sigRect now date) := by
  refine ⟨?_, signPdfWithToken_erase cms slot pin datau outputFile reason
    locationArg contact visible sigPage sigRect now date⟩
  exact signPdfWithToken_countP cms slot pin datau outputFile reason
    locationArg contact visible sigPage sigRect now date
    SessEvent.readsPrivateKey (fun _ => rfl) rfl rfl (fun _ => rfl) rfl
    (fun _ => rfl) (fun _ => rfl)

/-- C4: a signing operation that fails, at any stage and on either path,
performs no file write at all (in particular the input file is never
touched), and even a successful operation writes only to the output
path. -/
theorem failed_signing_writes_nothing
    (cms : CmsLib) (slot : SlotToken) (pin : String) (datau : List Nat)
    (outputFile reason locationArg contact : String) (visible : Bool)
    (sigPage : Nat) (sigRect : Option (Int × Int × Int × Int)) (now : Int)
    (date : String) (pfx : PfxFile) (pfxPath password : String) :
    ((signPdfWithToken cms slot pin datau outputFile reason locationArg contact
        visible sigPage sigRect now date).ok = false →
      (signPdfWithToken cms slot pin datau outputFile reason locationArg
        contact visible sigPage sigRect now date).writes = []) ∧
    ((signPdfWithPfx cms pfx pfxPath password datau outputFile reason
        locationArg contact visible sigPage sigRect now date).ok = false →
      (signPdfWithPfx cms pfx pfxPath password datau outputFile reason
        locationArg contact visible sigPage sigRect now date).writes = []) ∧
    ((signPdfWithToken cms slot pin datau outputFile reason locationArg contact
        visible sigPage sigRect now date).writes.all
          (fun w => w.1 == outputFile) = true) ∧
    ((signPdfWithPfx cms pfx pfxPath password datau outputFile reason
        locationArg contact visible sigPage sigRect now date).writes.all
          (fun w => w.1 == outputFile) = true) := by
  rcases signPdfWithToken_shape cms slot pin datau outputFile reason
      locationArg contact visible sigPage sigRect now date with
    ⟨hok1, hw1⟩ | ⟨hok1, datas1, hw1⟩ <;>
  rcases signPdfWithPfx_shape cms pfx pfxPath password datau outputFile reason
      locationArg contact visible sigPage sigRect now date with
    ⟨hok2, hw2⟩ | ⟨hok2, datas2, hw2⟩ <;>
    refine ⟨fun h => ?_, fun h => ?_, ?_, ?_⟩ <;>
    simp_all

/-- Witness for C4: a concrete failed hardware signing (wrong PIN) and a
concrete failed container signing (wrong passphrase) write nothing. -/
theorem failed_signing_writes_nothing_witness :
    (signPdfWithToken cmsTriv demoSlot "0000" [9] "out.pdf" "" "" "" true 0
      none 50 "D").writes = [] ∧
    (signPdfWithPfx cmsTriv expiredPfx "a.pfx" "oops" [9] "out.pdf" "" "" ""
      true 0 none 50 "D").writes = [] :=
  ⟨(failed_signing_writes_nothing cmsTriv demoSlot "0000" [9] "out.pdf" "" ""
      "" true 0 none 50 "D" expiredPfx "a.pfx" "oops").1 (by rfl),
   (failed_signing_writes_nothing cmsTriv demoSlot "0000" [9] "out.pdf" "" ""
      "" true 0 none 50 "D" expiredPfx "a.pfx" "oops").2.1 (by rfl)⟩

/-- C7: across the whole module list, `detect_usb_tokens` yields exactly
one entry per unique (stripped) token serial: the emitted serials are
pairwise distinct, and a serial is emitted exactly when some existing,
loadable module exposes a slot, with readable token info, carrying that
serial — even when the same physical token is reachable through several
module paths. -/
theorem detect_tokens_serial_dedup (now : Int) (ms : List ModuleEnv) :
    ((detectUsbTokens now ms).map DetectedToken.serial).Nodup ∧
    ∀ s : String, s ∈ (detectUsbTokens now ms).map DetectedToken.serial ↔
      ReachableSerial ms s := by
  obtain ⟨h1, h2⟩ := detectModulesAux_spec now ms []
  refine ⟨h2, fun s => ?_⟩
  unfold detectUsbTokens
  rw [h1 s]
  simp

/-- C9 (code bug): even for a token whose certificate object is readable
and parses to a certificate with CN `"Alice Example"` that is valid at
the current time, `_parse_certificate` falls into its exception handler
(the `is_valid` entry compares the offset-aware `not_valid_before_utc`
with the offset-naive `datetime.utcnow()`, which raises `TypeError`), so
the CN is never extracted and `display_name` falls back to the token
label `"MyToken"` instead of equalling the certificate CN. -/
theorem display_name_type_error_bug :
    parseCertificate 50 (.valid aliceCert) = unknownCertInfo ∧
    aliceCert.commonName = "Alice Example" ∧
    aliceCert.notValidBefore ≤ 50 ∧ (50 : Int) ≤ aliceCert.notValidAfter ∧
    (detectUsbTokens 50 [demoModule]).map DetectedToken.displayName =
      ["MyToken"] ∧
    (detectUsbTokens 50 [demoModule]).map DetectedToken.certHolder = [""] ∧
    "MyToken" ≠ "Alice Example" := by
  refine ⟨rfl, rfl, by decide, by decide, rfl, rfl, by decide⟩

/-- C3 counterexample: the hardware path performs no certificate-validity
check at all.  With a certificate whose validity ended at time 10 and
the clock at 1000, signing still logs in with the PIN and completes
successfully instead of failing with an expired-certificate error. -/
theorem expiry_gate_counterexample :
    expiredCert.notValidAfter < 1000 ∧
    (signPdfWithToken cmsTriv expiredSlot "1234" [9, 9] "out.pdf" "r" "loc" ""
      true 0 none 1000 "D").ok = true ∧
    SessEvent.login true ∈
      (signPdfWithToken cmsTriv expiredSlot "1234" [9, 9] "out.pdf" "r" "loc"
        "" true 0 none 1000 "D").trace := by
  refine ⟨by decide, rfl, by decide⟩

/-- C3 amended: only the PKCS#12 path checks
`not_before <= now <= not_after` (after decrypting the container) and
fails fast, with no write, on an expired certificate; the hardware path
performs no validity check whatever — its outcome is identical under any
two clock values — and its first token interaction is the PIN login. -/
theorem expiry_gate_amended (cms : CmsLib) (pfx : PfxFile)
    (pfxPath password : String) (datau : List Nat)
    (outputFile reason locationArg contact : String) (visible : Bool)
    (sigPage : Nat) (sigRect : Option (Int × Int × Int × Int))
    (now now2 : Int) (date : String) (key : RSAKey) (cert : X509Cert)
    (extra : List X509Cert) (slot : SlotToken) (pin : String)
    (h1 : pfx.present = true)
    (h2 : pfx.parse password = .parsed (some key) (some cert) extra)
    (h3 : cert.notValidAfter < now) :
    ((signPdfWithPfx cms pfx pfxPath password datau outputFile reason
        locationArg contact visible sigPage sigRect now date).ok = false ∧
     (signPdfWithPfx cms pfx pfxPath password datau outputFile reason
        locationArg contact visible sigPage sigRect now date).writes = [] ∧
     (signPdfWithPfx cms pfx pfxPath password datau outputFile reason
        locationArg contact visible sigPage sigRect now date).message =
       "Certificate has expired or is not yet valid. Valid from: "
         ++ toString cert.notValidBefore ++ " Valid until: "
         ++ toString cert.notValidAfter) ∧
    (signPdfWithToken cms slot pin datau outputFile reason locationArg contact
        visible sigPage sigRect now date =
      signPdfWithToken cms slot pin datau outputFile reason locationArg contact
        visible sigPage sigRect now2 date) := by
  constructor
  · have hpres : ¬ pfx.present = false := by rw [h1]; simp
    unfold signPdfWithPfx
    rw [if_neg hpres, h2]
    dsimp only
    rw [if_pos (Or.inr h3)]
    exact ⟨rfl, rfl, rfl⟩
  · unfold signPdfWithToken signWithEndesive
    dsimp only
    rw [hsmSignerName_eq now now2]

/-- Witness for the amended C3: the expired container fails fast with no
write, and the hardware outcome on the demonstration token is the same
at clocks 1000 and 55. -/
theorem expiry_gate_amended_witness :
    ((signPdfWithPfx cmsTriv expiredPfx "a.pfx" "secret" [9] "out.pdf" "r" "l"
        "c" true 0 none 1000 "D").ok = false ∧
     (signPdfWithPfx cmsTriv expiredPfx "a.pfx" "secret" [9] "out.pdf" "r" "l"
        "c" true 0 none 1000 "D").writes = [] ∧
     (signPdfWithPfx cmsTriv expiredPfx "a.pfx" "secret" [9] "out.pdf" "r" "l"
        "c" true 0 none 1000 "D").message =
       "Certificate has expired or is not yet valid. Valid from: "
         ++ toString expiredCert.notValidBefore ++ " Valid until: "
         ++ toString expiredCert.notValidAfter) ∧
    (signPdfWithToken cmsTriv demoSlot "1234" [9] "out.pdf" "r" "l" "c" true 0
        none 1000 "D" =
      signPdfWithToken cmsTriv demoSlot "1234" [9] "out.pdf" "r" "l" "c" true 0
        none 55 "D") :=
  expiry_gate_amended cmsTriv expiredPfx "a.pfx" "secret" [9] "out.pdf" "r"
    "l" "c" true 0 none 1000 55 "D" ⟨[3, 4]⟩ expiredCert [] demoSlot "1234"
    rfl rfl (by decide)

/-- C5 counterexample: `get_certificates_from_token` has no
`try`/`finally` around its session. With the wrong PIN, `session.login`
raises, the outer handler returns `[]`, and the opened session is never
closed: the trace ends right after the failed login, with one open and
zero closes. -/
theorem session_leak_counterexample :
    (getCertificatesFromToken 0 demoModule 0 (some "0000")).2 =
      [SessEvent.openSession, SessEvent.login false] ∧
    (getCertificatesFromToken 0 demoModule 0 (some "0000")).2.countP
      SessEvent.isOpen = 1 ∧
    (getCertificatesFromToken 0 demoModule 0 (some "0000")).2.countP
      SessEvent.isClose = 0 := ⟨rfl, rfl, rfl⟩

/-- C5 amended: `_read_certificate_cn_from_token` closes its session on
every path (`try`/`finally`), and `get_certificates_from_token` closes
it on every non-raising path — without a PIN, or with the correct PIN;
an exception during login (wrong PIN) leaks the session. -/
theorem session_scoping_amended (now : Int) (slot : SlotToken)
    (m : ModuleEnv) (i : Nat) (p : String) (s : SlotToken)
    (h1 : m.slots.get? i = some s) (h2 : p = s.correctPin) :
    ((readCertificateCNFromToken now slot).2.countP SessEvent.isOpen =
     (readCertificateCNFromToken now slot).2.countP SessEvent.isClose) ∧
    ((getCertificatesFromToken now m i none).2.countP SessEvent.isOpen =
     (getCertificatesFromToken now m i none).2.countP SessEvent.isClose) ∧
    ((getCertificatesFromToken now m i (some p)).2.countP SessEvent.isOpen =
     (getCertificatesFromToken now m i (some p)).2.countP SessEvent.isClose) := by
  have h1' : m.slots[i]? = some s := by
    rw [← List.get?_eq_getElem?]
    exact h1
  refine ⟨?_, ?_, ?_⟩
  · simp [readCertificateCNFromToken, List.countP_cons, List.countP_append,
          readCNLoop_countP now SessEvent.isOpen (fun _ => rfl),
          readCNLoop_countP now SessEvent.isClose (fun _ => rfl),
          SessEvent.isOpen, SessEvent.isClose]
  · by_cases hl : m.loadOk = false
    · simp [getCertificatesFromToken, hl]
    · simp [getCertificatesFromToken, hl, h1', List.countP_cons,
            List.countP_append,
            certsLoop_countP now SessEvent.isOpen (fun _ => rfl),
            certsLoop_countP now SessEvent.isClose (fun _ => rfl),
            SessEvent.isOpen, SessEvent.isClose]
  · by_cases hl : m.loadOk = false
    · simp [getCertificatesFromToken, hl]
    · simp [getCertificatesFromToken, hl, h1', h2, List.countP_cons,
            List.countP_append,
            certsLoop_countP now SessEvent.isOpen (fun _ => rfl),
            certsLoop_countP now SessEvent.isClose (fun _ => rfl),
            SessEvent.isOpen, SessEvent.isClose]

/-- Witness for the amended C5: balanced open/close counts on the
demonstration module, with no PIN and with the correct PIN. -/
theorem session_scoping_amended_witness :
    ((readCertificateCNFromToken 0 demoSlot).2.countP SessEvent.isOpen =
     (readCertificateCNFromToken 0 demoSlot).2.countP SessEvent.isClose) ∧
    ((getCertificatesFromToken 0 demoModule 0 none).2.countP SessEvent.isOpen =
     (getCertificatesFromToken 0 demoModule 0 none).2.countP
       SessEvent.isClose) ∧
    ((getCertificatesFromToken 0 demoModule 0 (some "1234")).2.countP
       SessEvent.isOpen =
     (getCertificatesFromToken 0 demoModule 0 (some "1234")).2.countP
       SessEvent.isClose) :=
  session_scoping_amended 0 demoSlot demoModule 0 "1234" demoSlot rfl rfl

/-- C6 counterexample: `TokenSigner.sign` ignores the `keyid` argument.
On a token holding two private keys — handles 1 and 2, `CKA_ID`s `[1]`
and `[9]` — a sign request for key id `[9]` (the key with handle 2) is
executed with the FIRST key object, handle 1: the native sign call and
the returned signature both use handle 1. -/
theorem sign_ignores_key_handle_counterexample :
    tokenSignerSign twoKeySlot "1234" [9] [5] "sha256" =
      (.ok [1, 5],
       [SessEvent.openSession, SessEvent.login true,
        SessEvent.findObjects .privateKey, SessEvent.signOp 1 .sha256,
        SessEvent.logout, SessEvent.closeSession]) ∧
    twoKeySlot.privKeys.map PrivKeyObject.keyId = [[1], [9]] ∧
    twoKeySlot.privKeys.map PrivKeyObject.handle = [1, 2] := by
  refine ⟨rfl, rfl, rfl⟩

/-- C6 amended: `sign` logs in, takes the FIRST private-key object on
the token regardless of the `keyid` argument (the result is identical
for any two requested key ids), signs with the mechanism derived from
the digest name, and logs out before returning — also on the error
paths, via the `finally` block; on a token with no private-key object
the `[0]` lookup raises `IndexError` (after which the `finally` still
logs out). -/
theorem token_sign_amended (slot : SlotToken) (pin : String)
    (keyid keyid2 data : List Nat) (mech : String) (mt : MechType)
    (hp : pin = slot.correctPin) (hmech : ckmRsaPkcs mech = .ok mt)
    (hsupp : mt ∈ slot.supportedMechs) :
    (tokenSignerSign slot pin keyid data mech =
      tokenSignerSign slot pin keyid2 data mech) ∧
    (match slot.privKeys with
     | [] => tokenSignerSign slot pin keyid data mech =
        (.error .indexError,
         [SessEvent.openSession, SessEvent.login true,
          SessEvent.findObjects .privateKey, SessEvent.logout,
          SessEvent.closeSession])
     | pk :: _ => tokenSignerSign slot pin keyid data mech =
        (.ok (slot.nativeSign pk.handle data mt),
         [SessEvent.openSession, SessEvent.login true,
          SessEvent.findObjects .privateKey, SessEvent.signOp pk.handle mt,
          SessEvent.logout, SessEvent.closeSession])) := by
  refine ⟨rfl, ?_⟩
  rcases hk : slot.privKeys with _ | ⟨pk, rest⟩ <;>
    simp [tokenSignerSign, hp, hk, hmech, hsupp]

/-- Witness for the amended C6: on the demonstration token the sign
result is the same for requested key ids `[9]` and `[3]`. -/
theorem token_sign_amended_witness :
    tokenSignerSign demoSlot "1234" [9] [5] "sha256" =
      tokenSignerSign demoSlot "1234" [3] [5] "sha256" :=
  (token_sign_amended demoSlot "1234" [9] [3] [5] "sha256" .sha256 rfl
    ckmRsaPkcs_sha256 (by decide)).1

/-- C8 counterexample: on a token supporting only SHA-1, the requested
SHA-256 signing fails, but the report is the generic catch-all
`"Signing failed: CKR_MECHANISM_INVALID"` — the code has no
`MechanismUnsupported` error kind. -/
theorem mechanism_report_counterexample :
    (signPdfWithToken cmsTriv sha1OnlySlot "1234" [7] "out.pdf" "" "" "" false
      0 none 0 "D").ok = false ∧
    (signPdfWithToken cmsTriv sha1OnlySlot "1234" [7] "out.pdf" "" "" "" false
      0 none 0 "D").message = "Signing failed: CKR_MECHANISM_INVALID" ∧
    "Signing failed: CKR_MECHANISM_INVALID" ≠ "MechanismUnsupported" := by
  refine ⟨rfl, rfl, by decide⟩

/-- C8 amended: when the token does not support the SHA-256 mechanism
the operation fails with no write and no fallback — the trace contains
no sign call with any other mechanism — but the failure is reported
through the generic exception handler as
`"Signing failed: CKR_MECHANISM_INVALID"`, not as a specific
`MechanismUnsupported` error kind. -/
theorem mechanism_unsupported_amended (cms : CmsLib) (slot : SlotToken)
    (pin : String) (datau : List Nat)
    (outputFile reason locationArg contact : String) (visible : Bool)
    (sigPage : Nat) (sigRect : Option (Int × Int × Int × Int)) (now : Int)
    (date : String) (kid : List Nat) (x : X509Cert) (pk : PrivKeyObject)
    (rest : List PrivKeyObject)
    (hp : pin = slot.correctPin)
    (hc : (certLoop slot.certObjects).1 = some (kid, .valid x))
    (hk : slot.privKeys = pk :: rest)
    (hm : MechType.sha256 ∉ slot.supportedMechs) :
    (signPdfWithToken cms slot pin datau outputFile reason locationArg contact
      visible sigPage sigRect now date).ok = false ∧
    (signPdfWithToken cms slot pin datau outputFile reason locationArg contact
      visible sigPage sigRect now date).writes = [] ∧
    (signPdfWithToken cms slot pin datau outputFile reason locationArg contact
      visible sigPage sigRect now date).message =
        "Signing failed: CKR_MECHANISM_INVALID" ∧
    (signPdfWithToken cms slot pin datau outputFile reason locationArg contact
      visible sigPage sigRect now date).trace.countP
        (SessEvent.signOpOther .sha256) = 0 := by
  obtain ⟨a, b, c⟩ := signPdfWithToken_mech_fail cms slot pin datau outputFile
    reason locationArg contact visible sigPage sigRect now date kid x pk rest
    hp hc hk hm
  refine ⟨a, b, c, ?_⟩
  exact signPdfWithToken_countP cms slot pin datau outputFile reason
    locationArg contact visible sigPage sigRect now date
    (SessEvent.signOpOther .sha256) (fun _ => rfl) rfl rfl (fun _ => rfl) rfl
    (fun _ => rfl) (fun _ => by simp [SessEvent.signOpOther])

/-- Witness for the amended C8: the SHA-1-only token at a concrete
signing request. -/
theorem mechanism_unsupported_amended_witness :
    (signPdfWithToken cmsTriv sha1OnlySlot "1234" [7] "out.pdf" "" "" "" false
      0 none 0 "D").ok = false ∧
    (signPdfWithToken cmsTriv sha1OnlySlot "1234" [7] "out.pdf" "" "" "" false
      0 none 0 "D").writes = [] ∧
    (signPdfWithToken cmsTriv sha1OnlySlot "1234" [7] "out.pdf" "" "" "" false
      0 none 0 "D").message = "Signing failed: CKR_MECHANISM_INVALID" ∧
    (signPdfWithToken cmsTriv sha1OnlySlot "1234" [7] "out.pdf" "" "" "" false
      0 none 0 "D").trace.countP (SessEvent.signOpOther .sha256) = 0 :=
  mechanism_unsupported_amended cmsTriv sha1OnlySlot "1234" [7] "out.pdf" ""
    "" "" false 0 none 0 "D" [1] aliceCert
    { handle := 1, keyId := [1], keyValue := [250, 251] } [] rfl rfl rfl
    (by decide)

/-- A present PKCS#12 container holding the long-lived certificate, with
passphrase `"secret"`. -/
def validPfx : PfxFile :=
  { present := true,
    parse := fun pw =>
      if pw = "secret" then .parsed (some ⟨[3, 4]⟩) (some aliceCert) []
      else .badPassword }

/-- C10: on both entry points, `visible_signature = True` with
`sig_rect = None` adds none of the visible-appearance entries to the
signature dictionary (the guard is `visible_signature AND sig_rect`),
behaves exactly as an invisible-signature request, and — under the usual
success conditions — still produces a cryptographically signed output
rather than failing or picking a default rectangle. -/
theorem visible_signature_without_rect
    (cms : CmsLib) (slot : SlotToken) (pin : String) (datau : List Nat)
    (outputFile reason locationArg contact : String) (sigPage : Nat)
    (now : Int) (date signerName : String) (pfx : PfxFile)
    (pfxPath password : String) (kid : List Nat) (x : X509Cert)
    (pk : PrivKeyObject) (rest : List PrivKeyObject) (key : RSAKey)
    (cert : X509Cert) (extra : List X509Cert) (datas0 : List Nat)
    (hp : pin = slot.correctPin)
    (hc : (certLoop slot.certObjects).1 = some (kid, .valid x))
    (hk : slot.privKeys = pk :: rest)
    (hm : MechType.sha256 ∈ slot.supportedMechs)
    (q1 : pfx.present = true)
    (q2 : pfx.parse password = .parsed (some key) (some cert) extra)
    (q3 : ¬(now < cert.notValidBefore ∨ cert.notValidAfter < now))
    (q4 : ∀ dct, cms.signPfx datau dct key cert extra = .ok datas0) :
    ((buildDct reason locationArg contact sigPage date true none
        signerName).signaturebox = none ∧
     (buildDct reason locationArg contact sigPage date true none
        signerName).signature = none ∧
     (buildDct reason locationArg contact sigPage date true none
        signerName).sigbutton = false) ∧
    (signPdfWithToken cms slot pin datau outputFile reason locationArg contact
        true sigPage none now date =
      signPdfWithToken cms slot pin datau outputFile reason locationArg
        contact false sigPage none now date) ∧
    (signPdfWithPfx cms pfx pfxPath password datau outputFile reason
        locationArg contact true sigPage none now date =
      signPdfWithPfx cms pfx pfxPath password datau outputFile reason
        locationArg contact false sigPage none now date) ∧
    (signPdfWithToken cms slot pin datau outputFile reason locationArg contact
        true sigPage none now date).ok = true ∧
    (signPdfWithPfx cms pfx pfxPath password datau outputFile reason
        locationArg contact true sigPage none now date).ok = true := by
  refine ⟨⟨rfl, rfl, rfl⟩, rfl, rfl, ?_, ?_⟩
  · exact signPdfWithToken_ok_of cms slot pin datau outputFile reason
      locationArg contact true sigPage none now date kid x pk rest hp hc hk hm
  · have hpres : ¬ pfx.present = false := by rw [q1]; simp
    unfold signPdfWithPfx
    rw [if_neg hpres, q2]
    dsimp only
    rw [if_neg q3, q4]

/-- Witness for C10: the healthy demonstration token and the valid
container, requesting a visible signature with no rectangle. -/
theorem visible_signature_without_rect_witness :
    ((buildDct "r" "l" "c" 0 "D" true none "N").signaturebox = none ∧
     (buildDct "r" "l" "c" 0 "D" true none "N").signature = none ∧
     (buildDct "r" "l" "c" 0 "D" true none "N").sigbutton = false) ∧
    (signPdfWithToken cmsTriv demoSlot "1234" [9] "out.pdf" "r" "l" "c" true 0
        none 50 "D" =
      signPdfWithToken cmsTriv demoSlot "1234" [9] "out.pdf" "r" "l" "c" false
        0 none 50 "D") ∧
    (signPdfWithPfx cmsTriv validPfx "a.pfx" "secret" [9] "out.pdf" "r" "l"
        "c" true 0 none 50 "D" =
      signPdfWithPfx cmsTriv validPfx "a.pfx" "secret" [9] "out.pdf" "r" "l"
        "c" false 0 none 50 "D") ∧
    (signPdfWithToken cmsTriv demoSlot "1234" [9] "out.pdf" "r" "l" "c" true 0
        none 50 "D").ok = true ∧
    (signPdfWithPfx cmsTriv validPfx "a.pfx" "secret" [9] "out.pdf" "r" "l"
        "c" true 0 none 50 "D").ok = true :=
  visible_signature_without_rect cmsTriv demoSlot "1234" [9] "out.pdf" "r" "l"
    "c" 0 50 "D" "N" validPfx "a.pfx" "secret" [1] aliceCert
    { handle := 1, keyId := [1], keyValue := [250, 251] } [] ⟨[3, 4]⟩
    aliceCert [] [80, 81] rfl rfl rfl (by decide) rfl rfl (by decide)
    (fun _ => rfl)

end NexProPDF
